import Mathlib

/-!
Verification of the email ETL pipeline of the voice-email-agent repository.

The Python source is shallowly embedded: dictionaries coming from the
provider API become `JVal`-valued association lists, pydantic validation
becomes `Except`-valued checks, SQLite tables become Lean lists of rows,
and the orchestrator's effectful steps take their outcomes from an
explicit environment so that failure injection is expressible.
-/

set_option linter.unusedVariables false

namespace VoiceAgent

/-! ### JSON-like values (the raw provider records) -/

/-- A JSON-like value, modelling the Python objects handed to the
transformer by the fetcher. -/
inductive JVal : Type where
  | null : JVal
  | str : String → JVal
  | int : Int → JVal
  | arr : List JVal → JVal
  | obj : List (String × JVal) → JVal

/-- Python truthiness of a `JVal`. -/
def JVal.truthy : JVal → Bool
  | .null => false
  | .str s => !(s == "")
  | .int n => !(n == 0)
  | .arr xs => !xs.isEmpty
  | .obj fs => !fs.isEmpty

/-- A raw provider email: a Python dict with string keys. -/
abbrev RawEmail := List (String × JVal)

/-- Python `d.get(k, default)` on a dict. -/
def pyGet (r : List (String × JVal)) (k : String) (dflt : JVal) : JVal :=
  match r.find? (fun p => p.1 == k) with
  | some p => p.2
  | none => dflt

/-- Python `v[0]` on an arbitrary value: first element of a list, first
character of a string, an exception otherwise. -/
def pyIndex0 : JVal → Except String JVal
  | .arr (x :: _) => .ok x
  | .arr [] => .error "IndexError"
  | .str s =>
      match s.data with
      | c :: _ => .ok (.str (String.mk [c]))
      | [] => .error "IndexError"
  | _ => .error "TypeError"

/-- Python `info.get(k, \"\")` where `info` may not be a dict
(raises AttributeError otherwise). -/
def pyDictGetStr (v : JVal) (k : String) : Except String JVal :=
  match v with
  | .obj fs => .ok (pyGet fs k (.str ""))
  | _ => .error "AttributeError"

/-- etl_service.py lines 70 and 73: take the first entry of the
`from`/`to` field when that field is truthy, otherwise an empty dict. -/
def firstEntry (r : RawEmail) (k : String) : Except String JVal :=
  let v := pyGet r k .null
  if v.truthy then pyIndex0 v else .ok (.obj [])

/-! ### The canonical email record (models.py EmailModel) -/

/-- models.py `EmailModel` after validation.  The server-assigned
`created_at` and `updated_at` timestamps are omitted as no claim
mentions them; `processed_at` is the transform-time stamp. -/
structure EmailModel where
  id : String
  thread_id : Option String := none
  subject : String := ""
  body : String := ""
  from_name : String := ""
  from_email : String := ""
  to_name : String := ""
  to_email : String := ""
  date : Option Int := none
  processed_at : Option Nat := none
deriving DecidableEq, Repr

/-- `'c' in s` on a Python string. -/
def pyContains (s : String) (c : Char) : Bool := s.data.contains c

/-- Pydantic validation of a required `str` field. -/
def asStr : JVal → Except String String
  | .str s => .ok s
  | _ => .error "ValidationError: str expected"

/-- Pydantic validation of an `Optional[str]` field. -/
def asOptStr : JVal → Except String (Option String)
  | .null => .ok none
  | .str s => .ok (some s)
  | _ => .error "ValidationError: str or None expected"

/-- Digits-only parse of a character list. -/
def digitsToNat : List Char → Option Nat
  | [] => none
  | cs => cs.foldl (fun acc c => match acc with
      | none => none
      | some n => if c.isDigit then some (n * 10 + (c.toNat - 48)) else none)
      (some 0)

/-- Pydantic lax-mode coercion of a string to an integer. -/
def pyStrToInt : String → Option Int
  | s => match s.data with
      | '-' :: rest => (digitsToNat rest).map (fun n => -(n : Int))
      | cs => (digitsToNat cs).map (fun n => (n : Int))

/-- Pydantic validation of an `Optional[int]` field (lax mode also
accepts integer-shaped strings). -/
def asOptInt : JVal → Except String (Option Int)
  | .null => .ok none
  | .int n => .ok (some n)
  | .str s =>
      match pyStrToInt s with
      | some n => .ok (some n)
      | none => .error "ValidationError: int expected"
  | _ => .error "ValidationError: int expected"

/-- models.py `validate_email_format`: a required `str` field that, when
non-empty, must contain an at sign. -/
def asEmailStr (v : JVal) : Except String String :=
  (asStr v).bind fun s =>
    if s != "" && !(pyContains s '@') then .error "Invalid email format" else .ok s

/-! ### The transformer (etl_service.py _transform_emails) -/

/-- The raw field values the transformer passes to the `EmailModel`
constructor, before pydantic validation. -/
structure RawFields where
  idv : JVal
  thread_idv : JVal
  subjectv : JVal
  bodyv : JVal
  from_namev : JVal
  from_emailv : JVal
  to_namev : JVal
  to_emailv : JVal
  datev : JVal

/-- etl_service.py lines 70-85: extract the keyword arguments for one
raw record.  Raises (returns `.error`) exactly when the first-entry
extraction of `from`/`to` does. -/
def extractFields (r : RawEmail) : Except String RawFields :=
  (firstEntry r "from").bind fun fi =>
  (firstEntry r "to").bind fun ti =>
  (pyDictGetStr fi "name").bind fun fn =>
  (pyDictGetStr fi "email").bind fun fe =>
  (pyDictGetStr ti "name").bind fun tn =>
  (pyDictGetStr ti "email").bind fun te =>
  .ok { idv := pyGet r "id" .null
        thread_idv := pyGet r "thread_id" .null
        subjectv := pyGet r "subject" (.str "")
        bodyv := pyGet r "body" (.str "")
        from_namev := fn
        from_emailv := fe
        to_namev := tn
        to_emailv := te
        datev := pyGet r "date" .null }

/-- Pydantic validation of the extracted fields, mirroring the field
declarations and the email-format validator of models.py. -/
def validateModel (now : Nat) (f : RawFields) : Except String EmailModel :=
  (asStr f.idv).bind fun i =>
  (asOptStr f.thread_idv).bind fun tid =>
  (asStr f.subjectv).bind fun subj =>
  (asStr f.bodyv).bind fun bdy =>
  (asStr f.from_namev).bind fun fnm =>
  (asEmailStr f.from_emailv).bind fun fem =>
  (asStr f.to_namev).bind fun tnm =>
  (asEmailStr f.to_emailv).bind fun tem =>
  (asOptInt f.datev).bind fun dt =>
  .ok { id := i, thread_id := tid, subject := subj, body := bdy,
        from_name := fnm, from_email := fem, to_name := tnm, to_email := tem,
        date := dt, processed_at := some now }

/-- `Except` to `Option`: the per-record try/except of the transformer. -/
def exToOption {α : Type} : Except String α → Option α
  | .ok a => some a
  | .error _ => none

/-- Is the computation successful? -/
def exOk {α : Type} : Except String α → Bool
  | .ok _ => true
  | .error _ => false

/-- One iteration of the transformer loop. -/
def transformOne (now : Nat) (r : RawEmail) : Except String EmailModel :=
  (extractFields r).bind (validateModel now)

/-- etl_service.py `_transform_emails`: records whose extraction or
validation raises are logged and dropped, the rest is kept in order. -/
def transformEmails (now : Nat) (raws : List RawEmail) : List EmailModel :=
  raws.filterMap (fun r => exToOption (transformOne now r))

/-! ### Document text preparation (vector_store.py _prepare_email_content) -/

/-- The whitespace characters stripped by Python `str.strip()`. -/
def isPyWs (c : Char) : Bool :=
  c == ' ' || c == '\t' || c == '\n' || c == '\r' || c == '\x0b' || c == '\x0c'

/-- Python `s.strip()`. -/
def pyStrip (s : String) : String :=
  String.mk (((s.data.dropWhile isPyWs).reverse.dropWhile isPyWs).reverse)

/-- Python `sep.join(parts)`. -/
def pyJoin (sep : String) : List String → String
  | [] => ""
  | [x] => x
  | x :: xs => x ++ sep ++ pyJoin sep xs

/-- vector_store.py `_prepare_email_content`. -/
def prepare_email_content (e : EmailModel) : String :=
  let parts : List String :=
    (if e.subject != "" && pyStrip e.subject != "" then
      ["Subject: " ++ pyStrip e.subject] else [])
    ++ (if e.body != "" && pyStrip e.body != "" then
      ["Body: " ++ pyStrip e.body] else [])
  if parts.isEmpty then "Empty email" else pyJoin "\n\n" parts

/-- The document text exactly as the specification words it: the
non-empty `subject` and `body` under fixed labels, joined by blank
lines, and the literal placeholder when both are empty.  Written from
the spec sentence, to be compared against `prepare_email_content`. -/
def specDocumentText (e : EmailModel) : String :=
  if e.subject != "" && e.body != "" then
    "Subject: " ++ e.subject ++ "\n\n" ++ "Body: " ++ e.body
  else if e.subject != "" then "Subject: " ++ e.subject
  else if e.body != "" then "Body: " ++ e.body
  else "Empty email"

/-- The document text with the stripping behaviour the code actually
has: whitespace-stripped fields, whitespace-only fields treated as
absent. -/
def strippedDocumentText (e : EmailModel) : String :=
  if pyStrip e.subject != "" && pyStrip e.body != "" then
    "Subject: " ++ pyStrip e.subject ++ "\n\n" ++ "Body: " ++ pyStrip e.body
  else if pyStrip e.subject != "" then "Subject: " ++ pyStrip e.subject
  else if pyStrip e.body != "" then "Body: " ++ pyStrip e.body
  else "Empty email"

/-! ### The email table (database/email_repository.py) -/

/-- SQLite `INSERT OR REPLACE`: the conflicting row is deleted and the
new row appended. -/
def insertOrReplace (t : List EmailModel) (e : EmailModel) : List EmailModel :=
  t.filter (fun row => row.id != e.id) ++ [e]

/-- SQLite `INSERT OR IGNORE`: the new row is dropped when a row with
the same id already exists. -/
def insertOrIgnore (t : List EmailModel) (e : EmailModel) : List EmailModel :=
  if t.any (fun row => row.id == e.id) then t else t ++ [e]

/-- email_repository.py `save`: a single INSERT OR REPLACE, committed
per call. -/
def save (t : List EmailModel) (e : EmailModel) : List EmailModel :=
  insertOrReplace t e

/-- email_repository.py `save_batch`: early return on an empty input,
otherwise an INSERT OR IGNORE per record in one transaction. -/
def save_batch (t : List EmailModel) (emails : List EmailModel) : List EmailModel :=
  if emails.isEmpty then t else emails.foldl insertOrIgnore t

/-- etl_service.py `_load_emails`: one `database.save_email` call
(INSERT OR REPLACE) per transformed record. -/
def load_emails (t : List EmailModel) (emails : List EmailModel) : List EmailModel :=
  emails.foldl save t

/-- The ids stored in a table. -/
def tableIds (t : List EmailModel) : List String := t.map (fun row => row.id)

/-- Does the table hold a row with this id? -/
def hasId (t : List EmailModel) (i : String) : Bool :=
  t.any (fun row => row.id == i)

/-- `get_by_id`: the first row with the given id. -/
def lookupId (t : List EmailModel) (i : String) : Option EmailModel :=
  t.find? (fun row => row.id == i)

/-- The last record of a list bearing a given id. -/
def lastWithId (es : List EmailModel) (i : String) : Option EmailModel :=
  es.reverse.find? (fun e => e.id == i)

/-! ### ETL jobs (models.py, database/etl_repository.py) -/

/-- models.py `ETLJobStatus`. -/
inductive ETLJobStatus : Type where
  | pending | running | completed | failed
deriving DecidableEq, Repr

/-- A row of the `etl_jobs` table (timestamps omitted, no claim
mentions them). -/
structure ETLJobRow where
  id : Nat
  job_type : String
  status : ETLJobStatus
  records_processed : Nat
  error_message : Option String
deriving DecidableEq, Repr

/-- The relational store: the `emails` table, the `etl_jobs` table and
SQLite's autoincrement counter. -/
structure DBState where
  emails : List EmailModel
  jobs : List ETLJobRow
  nextJobId : Nat
deriving DecidableEq, Repr

/-- etl_repository.py `start_job`: INSERT a job row with the given
status, returning the autoincremented id. -/
def start_job (db : DBState) (jt : String) (st : ETLJobStatus) : Nat × DBState :=
  (db.nextJobId,
   { db with
      jobs := db.jobs ++ [⟨db.nextJobId, jt, st, 0, none⟩],
      nextJobId := db.nextJobId + 1 })

/-- etl_repository.py `complete_job`: an unconditional UPDATE of the
row with the given id. -/
def complete_job (db : DBState) (jobId : Nat) (st : ETLJobStatus)
    (recs : Nat) (err : Option String) : DBState :=
  { db with
      jobs := db.jobs.map (fun j =>
        if j.id == jobId then
          { j with status := st, records_processed := recs, error_message := err }
        else j) }

/-- etl_repository.py `get_by_id` on the jobs table. -/
def get_job (db : DBState) (jobId : Nat) : Option ETLJobRow :=
  db.jobs.find? (fun j => j.id == jobId)

/-- Autoincrement well-formedness: every stored job id is below the
counter. -/
def jobs_fresh (db : DBState) : Prop :=
  ∀ j ∈ db.jobs, j.id < db.nextJobId

/-! ### The vector store and the orchestrator (etl_service.py) -/

/-- The persisted search index: an id-keyed collection of document
texts, plus the per-handle `self.initialized` flag. -/
structure VSState where
  inited : Bool
  docs : List (String × String)
deriving DecidableEq, Repr

/-- Outcomes of the effectful steps of one `run_etl` invocation.
`none` outcomes mean the underlying call succeeds; `some m` means it
raises with message `m`. -/
structure EtlEnv where
  /-- was `self.vector_store` None at entry (run_etl lines 30-32)? -/
  vsIsNone : Bool
  /-- outcome of `init_store` when it runs -/
  vsInitFail : Option String
  /-- outcome of `fetch_emails` -/
  fetchResult : Except String (List RawEmail)
  /-- per-record outcome of `database.save_email` -/
  saveFail : EmailModel → Option String
  /-- ids for which `collection.get` raises inside `email_exists`
  (caught there, so `email_exists` just returns False) -/
  vsExistsBroken : String → Bool
  /-- outcome of `add_emails_batch` -/
  vsAddFail : Option String

/-- vector_store.py `email_exists`: its own try/except turns a raising
`collection.get` into False. -/
def email_exists (env : EtlEnv) (vs : VSState) (i : String) : Bool :=
  if env.vsExistsBroken i then false else vs.docs.any (fun d => d.1 == i)

/-- etl_service.py `_start_etl_job`: a job of type "email_extraction"
inserted directly with status RUNNING. -/
def start_etl_job (db : DBState) : Nat × DBState :=
  start_job db "email_extraction" .running

/-- etl_service.py `_load_emails`, with per-record commits: the rows
saved before a failing save stay saved; the first failure aborts the
loop and propagates its message. -/
def run_load_emails (env : EtlEnv) :
    List EmailModel → List EmailModel → List EmailModel × Option String
  | t, [] => (t, none)
  | t, e :: es =>
      match env.saveFail e with
      | some m => (t, some m)
      | none => run_load_emails env (save t e) es

/-- etl_service.py `_load_emails_to_vector_store`: early return on an
empty batch; every exception inside (a raising `_ensure_initialized`,
a raising `add_emails_batch`) is caught and leaves the index
unchanged; otherwise the records not already present are appended in
one batch. -/
def run_vs_load (env : EtlEnv) (vs : VSState) (emails : List EmailModel) : VSState :=
  if emails.isEmpty then vs
  else if !vs.inited then vs
  else
    let newEmails := emails.filter (fun e => !(email_exists env vs e.id))
    if newEmails.isEmpty then vs
    else
      match env.vsAddFail with
      | some _ => vs
      | none =>
          { vs with
              docs := vs.docs ++ newEmails.map (fun e => (e.id, prepare_email_content e)) }

/-- The dict returned by a successful `run_etl`. -/
structure RunResult where
  emails_processed : Nat
  job_id : Nat
deriving DecidableEq, Repr

/-- etl_service.py `run_etl`: the full orchestration.  Returns the
result (or the re-raised exception), the final relational store, the
final index, and the trace of job-status writes in order. -/
def run_etl (env : EtlEnv) (db : DBState) (vs : VSState) (now : Nat) :
    Except String RunResult × DBState × VSState × List (Nat × ETLJobStatus) :=
  let jobId := (start_etl_job db).1
  let db1 := (start_etl_job db).2
  match (if env.vsIsNone then env.vsInitFail else none) with
  | some m =>
      (.error m, complete_job db1 jobId .failed 0 (some m), vs,
        [(jobId, .running), (jobId, .failed)])
  | none =>
    let vs1 := if env.vsIsNone then { vs with inited := true } else vs
    match env.fetchResult with
    | .error m =>
        (.error m, complete_job db1 jobId .failed 0 (some m), vs1,
          [(jobId, .running), (jobId, .failed)])
    | .ok raws =>
      let models := transformEmails now raws
      let lr := run_load_emails env db1.emails models
      let db2 := { db1 with emails := lr.1 }
      match lr.2 with
      | some m =>
          (.error m, complete_job db2 jobId .failed 0 (some m), vs1,
            [(jobId, .running), (jobId, .failed)])
      | none =>
          (.ok ⟨models.length, jobId⟩,
           complete_job db2 jobId .completed models.length none,
           run_vs_load env vs1 models,
           [(jobId, .running), (jobId, .completed)])

/-! ### The fetcher (email_fetcher.py NylasEmailFetcher.fetch_emails) -/

/-- One provider API response: `data` (payloads kept opaque as naturals)
and `next_cursor`. -/
structure FetchPage where
  data : List Nat
  next_cursor : Option String
deriving DecidableEq, Repr

/-- Python truthiness of the cursor (`if not page_token`): absent and
empty cursors both stop paging. -/
def cursorTruthy : Option String → Bool
  | none => false
  | some s => !(s == "")

/-- `max_emails or self.MAX_EMAILS` (line 30): zero and None both fall
back to the default 10. -/
def effectiveMax : Option Nat → Nat
  | none => 10
  | some 0 => 10
  | some (n + 1) => n + 1

/-- `emails_per_page or self.EMAILS_PER_PAGE` (line 31): zero and None
both fall back to the default 5. -/
def effectivePerPage : Option Nat → Nat
  | none => 5
  | some 0 => 5
  | some (n + 1) => n + 1

/-- The paging loop of `fetch_emails` (lines 36-79), with fuel for the
provider-driven iteration.  Returns the accumulated records and the
trace of (requested limit, response) pairs; `none` means the fuel ran
out before the loop stopped. -/
def fetch_loop (provider : Nat → Option String → FetchPage) (maxE pageSize : Nat) :
    Nat → List Nat → Option String → List (Nat × FetchPage) →
    Option (List Nat × List (Nat × FetchPage))
  | 0, _, _, _ => none
  | fuel + 1, acc, tok, tr =>
      if acc.length < maxE then
        let lim := min pageSize (maxE - acc.length)
        let pg := provider lim tok
        let acc2 := acc ++ pg.data
        let tr2 := tr ++ [(lim, pg)]
        if !(cursorTruthy pg.next_cursor) then some (acc2, tr2)
        else if maxE ≤ acc2.length then some (acc2, tr2)
        else fetch_loop provider maxE pageSize fuel acc2 pg.next_cursor tr2
      else some (acc, tr)

/-- email_fetcher.py `fetch_emails`: run the loop from an empty
accumulator and no page token, and return `all_emails[:max_emails]`
together with the request trace. -/
def fetch_emails (provider : Nat → Option String → FetchPage)
    (maxEmails emailsPerPage : Option Nat) (fuel : Nat) :
    Option (List Nat × List (Nat × FetchPage)) :=
  let m := effectiveMax maxEmails
  let p := effectivePerPage emailsPerPage
  (fetch_loop provider m p fuel [] none []).map (fun r => (r.1.take m, r.2))

/-- Conformance of a request trace to the paging contract: each request
asks for `min(page_size, max - accumulated)`, a non-final response has
a truthy cursor and leaves the count below the max, and a final
response has no truthy cursor or reaches the max. -/
def traceConform (maxE pageSize : Nat) : Nat → List (Nat × FetchPage) → Prop
  | _, [] => True
  | acc, (l, pg) :: rest =>
      acc < maxE ∧ l = min pageSize (maxE - acc) ∧
      (rest = [] → (cursorTruthy pg.next_cursor = false ∨ maxE ≤ acc + pg.data.length)) ∧
      (rest ≠ [] → (cursorTruthy pg.next_cursor = true ∧ acc + pg.data.length < maxE)) ∧
      traceConform maxE pageSize (acc + pg.data.length) rest

/-! ### The voice-facing query tools (tools/email_tools.py) -/

/-- One formatted result of `EmailSearchStore.search_similar`
(distances modelled as integers; no claim computes with them). -/
structure VSResult where
  email_id : String
  distance : Int
deriving DecidableEq, Repr

/-- Python `s[:n]`. -/
def pyTake (s : String) (n : Nat) : String := String.mk (s.data.take n)

/-- The summary dict built by `search_emails_by_sender` and
`get_recent_emails`. -/
structure EmailSummary where
  subject : String
  from_name : String
  from_email : String
  date : String
  body_preview : String
deriving DecidableEq, Repr

/-- The summary dict built by `search_emails` (adds the relevance
score; rounding an integral distance is the identity). -/
structure ScoredSummary where
  subject : String
  from_name : String
  from_email : String
  date : String
  body_preview : String
  relevance_score : Int
deriving DecidableEq, Repr

/-- The field formatting shared by the three tools, including the
Python `or`-defaults and the truthiness of `email.date`. -/
def mk_summary (e : EmailModel) : EmailSummary :=
  { subject := if e.subject == "" then "No subject" else e.subject
    from_name := if e.from_name == "" then "Unknown" else e.from_name
    from_email := e.from_email
    date := match e.date with
      | some d => if d == 0 then "Unknown date" else toString d
      | none => "Unknown date"
    body_preview := if e.body == "" then "No content" else pyTake e.body 200 }

/-- The `search_emails` summary with its relevance score. -/
def mk_scored (e : EmailModel) (dist : Int) : ScoredSummary :=
  { subject := (mk_summary e).subject
    from_name := (mk_summary e).from_name
    from_email := (mk_summary e).from_email
    date := (mk_summary e).date
    body_preview := (mk_summary e).body_preview
    relevance_score := dist }

/-- Outcomes of the store calls made by the query tools. -/
structure ToolsEnv where
  /-- `vector_store.search_emails(query, limit)` -/
  vsSearch : Except String (List VSResult)
  /-- `vector_store.search_similar` filtered by `from_email` -/
  vsByEmail : Except String (List VSResult)
  /-- `vector_store.search_similar` filtered by `from_name` -/
  vsByName : Except String (List VSResult)
  /-- `database.get_email_by_id` -/
  dbGet : String → Except String (Option EmailModel)
  /-- `database.email_repo.get_recent(limit)` -/
  dbRecent : Except String (List EmailModel)

/-- The hydration loop of `search_emails`: look up each candidate id,
skip the ids that hydrate to nothing, abort on a raising lookup. -/
def hydrate_scored (g : String → Except String (Option EmailModel)) :
    List VSResult → Except String (List ScoredSummary)
  | [] => .ok []
  | r :: rs =>
      (g r.email_id).bind fun eo =>
      (hydrate_scored g rs).bind fun rest =>
      match eo with
      | some e => .ok (mk_scored e r.distance :: rest)
      | none => .ok rest

/-- The hydration loop of `search_emails_by_sender`. -/
def hydrate_plain (g : String → Except String (Option EmailModel)) :
    List VSResult → Except String (List EmailSummary)
  | [] => .ok []
  | r :: rs =>
      (g r.email_id).bind fun eo =>
      (hydrate_plain g rs).bind fun rest =>
      match eo with
      | some e => .ok (mk_summary e :: rest)
      | none => .ok rest

/-- The hydrations that succeed, as a pure projection. -/
def hydrated_scored_pure (g : String → Except String (Option EmailModel))
    (vrs : List VSResult) : List ScoredSummary :=
  vrs.filterMap (fun r =>
    match g r.email_id with
    | .ok (some e) => some (mk_scored e r.distance)
    | _ => none)

/-- The hydrations that succeed, without scores. -/
def hydrated_plain_pure (g : String → Except String (Option EmailModel))
    (vrs : List VSResult) : List EmailSummary :=
  vrs.filterMap (fun r =>
    match g r.email_id with
    | .ok (some e) => some (mk_summary e)
    | _ => none)

/-- email_tools.py `search_emails`: the whole body runs under a
try/except that degrades any exception to an empty list. -/
def search_emails_tool (env : ToolsEnv) : List ScoredSummary :=
  match (env.vsSearch.bind fun vrs =>
          if vrs.isEmpty then .ok [] else hydrate_scored env.dbGet vrs) with
  | .ok l => l
  | .error _ => []

/-- email_tools.py `search_emails_by_sender`: filter by sender email,
fall back to sender name when that yields nothing, hydrate, and
degrade any exception to an empty list. -/
def search_by_sender_tool (env : ToolsEnv) : List EmailSummary :=
  match (env.vsByEmail.bind fun v1 =>
          (if v1.isEmpty then env.vsByName else .ok v1).bind fun vrs =>
          hydrate_plain env.dbGet vrs) with
  | .ok l => l
  | .error _ => []

/-- email_tools.py `get_recent_emails`: read recents from the record
store, format, degrade any exception to an empty list. -/
def get_recent_tool (env : ToolsEnv) : List EmailSummary :=
  match env.dbRecent with
  | .ok es => es.map mk_summary
  | .error _ => []

/-! ### Concrete inputs used by witnesses and counterexamples -/

/-- A row already present in the store. -/
def c1_stored : EmailModel := { id := "a", subject := "old" }

/-- A transformed record carrying the same id with new content. -/
def c1_incoming : EmailModel := { id := "a", subject := "new" }

/-- An email record whose subject is a single space. -/
def c5_record : EmailModel := { id := "e", subject := " ", body := "" }

/-- A raw record the transformer accepts. -/
def c4_good : RawEmail := [("id", JVal.str "a")]

/-- A raw record whose `from` field is a string rather than a list of
participant objects: indexing yields a string, whose `.get` raises. -/
def c4_bad : RawEmail := [("id", JVal.str "b"), ("from", JVal.str "sender")]

/-- A raw record whose extracted sender address has no at sign. -/
def c10_raw : RawEmail :=
  [("id", JVal.str "a"),
   ("from", JVal.arr [JVal.obj [("email", JVal.str "bademail")]])]

/-- The fields extracted from `c10_raw`. -/
def c10_fields : RawFields :=
  { idv := JVal.str "a", thread_idv := JVal.null,
    subjectv := JVal.str "", bodyv := JVal.str "",
    from_namev := JVal.str "", from_emailv := JVal.str "bademail",
    to_namev := JVal.str "", to_emailv := JVal.str "",
    datev := JVal.null }

/-- An empty relational store. -/
def db0 : DBState := { emails := [], jobs := [], nextJobId := 0 }

/-- A provided, already-initialized search index. -/
def vs0 : VSState := { inited := true, docs := [] }

/-- An environment in which everything succeeds except the Search
Index batch add, which raises. -/
def env_c6 : EtlEnv :=
  { vsIsNone := false, vsInitFail := none,
    fetchResult := .ok [c4_good],
    saveFail := fun _ => none,
    vsExistsBroken := fun _ => false,
    vsAddFail := some "index down" }

/-- An environment in which the provider fetch raises. -/
def env_c7 : EtlEnv :=
  { vsIsNone := false, vsInitFail := none,
    fetchResult := .error "neterr",
    saveFail := fun _ => none,
    vsExistsBroken := fun _ => false,
    vsAddFail := none }

/-- A provider answering every request with one final record. -/
def c8_provider : Nat → Option String → FetchPage := fun _ _ => ⟨[7], none⟩

/-- A provider with two pages; the second page over-delivers. -/
def c8_provider2 : Nat → Option String → FetchPage := fun _ t =>
  match t with
  | none => ⟨[1, 2, 3], some "c1"⟩
  | some _ => ⟨[4, 5], none⟩

/-- The request trace `c8_provider2` induces at max 4, page size 3. -/
def c8_trace : List (Nat × FetchPage) :=
  [(3, ⟨[1, 2, 3], some "c1"⟩), (1, ⟨[4, 5], none⟩)]

/-- A stored email hydrated by the query tools. -/
def c9_email : EmailModel := { id := "e1", subject := "Hi", body := "Hello there" }

/-- A tools environment: the semantic search returns one live and one
dangling candidate id, the by-sender fallback search raises, and the
recency read raises. -/
def env_c9 : ToolsEnv :=
  { vsSearch := .ok [⟨"e1", 3⟩, ⟨"gone", 1⟩],
    vsByEmail := .ok [],
    vsByName := .error "chroma down",
    dbGet := fun i => if i == "e1" then .ok (some c9_email) else .ok none,
    dbRecent := .error "db down" }

/-! ### Helper lemmas on the email table -/

theorem insertOrIgnore_of_hasId {t : List EmailModel} {e : EmailModel}
    (h : hasId t e.id = true) : insertOrIgnore t e = t := by
  simp only [insertOrIgnore, hasId] at *
  rw [h]
  simp

theorem hasId_insertOrIgnore_self (t : List EmailModel) (e : EmailModel) :
    hasId (insertOrIgnore t e) e.id = true := by
  by_cases h : hasId t e.id = true
  · rw [insertOrIgnore_of_hasId h]; exact h
  · simp only [insertOrIgnore, hasId] at *
    simp [h, List.any_append]

theorem hasId_insertOrIgnore_mono {t : List EmailModel} {i : String}
    (e : EmailModel) (h : hasId t i = true) :
    hasId (insertOrIgnore t e) i = true := by
  simp only [insertOrIgnore]
  split
  · exact h
  · simp only [hasId, List.any_append] at *
    simp [h]

theorem foldl_ignore_hasId_mono {i : String} :
    ∀ (es : List EmailModel) (t : List EmailModel), hasId t i = true →
      hasId (es.foldl insertOrIgnore t) i = true := by
  intro es
  induction es with
  | nil => intro t h; exact h
  | cons e es ih =>
      intro t h
      exact ih (insertOrIgnore t e) (hasId_insertOrIgnore_mono e h)

theorem foldl_ignore_all_present :
    ∀ (es : List EmailModel) (t : List EmailModel), ∀ e ∈ es,
      hasId (es.foldl insertOrIgnore t) e.id = true := by
  intro es
  induction es with
  | nil => intro t e he; cases he
  | cons a es ih =>
      intro t e he
      rcases List.mem_cons.mp he with rfl | he
      · exact foldl_ignore_hasId_mono es (insertOrIgnore t e)
          (hasId_insertOrIgnore_self t e)
      · exact ih (insertOrIgnore t a) e he

theorem foldl_ignore_noop :
    ∀ (es : List EmailModel) (t : List EmailModel),
      (∀ e ∈ es, hasId t e.id = true) → es.foldl insertOrIgnore t = t := by
  intro es
  induction es with
  | nil => intro t _; rfl
  | cons a es ih =>
      intro t h
      have ha : insertOrIgnore t a = t := insertOrIgnore_of_hasId (h a (by simp))
      simp only [List.foldl_cons, ha]
      exact ih t (fun e he => h e (by simp [he]))

/-- CLAIM C3: calling the Record Store batch load twice with the same
input leaves the store with the same row count as calling it once, and
batch-loading an empty list is a no-op. -/
theorem save_batch_idempotent_row_count (t es : List EmailModel) :
    (save_batch (save_batch t es) es).length = (save_batch t es).length ∧
    save_batch t [] = t := by
  refine ⟨?_, rfl⟩
  by_cases hes : es.isEmpty
  · simp [save_batch, hes]
  · simp only [save_batch, hes, if_neg, Bool.false_eq_true, not_false_iff, if_false]
    rw [foldl_ignore_noop es (es.foldl insertOrIgnore t)
      (fun e he => foldl_ignore_all_present es t e he)]

/-- CLAIM C1 (counterexample): on a store already holding a row with
id "a", loading a transformed record with the same id overwrites the
stored row — the code's per-record INSERT OR REPLACE path updates it,
while the claimed insert-ignore semantics (the repository's
`save_batch`, not used by the ETL load) would have left it alone. -/
theorem etl_load_overwrites_existing_row :
    load_emails [c1_stored] [c1_incoming] = [c1_incoming] ∧
    load_emails [c1_stored] [c1_incoming] ≠ [c1_stored] ∧
    save_batch [c1_stored] [c1_incoming] = [c1_stored] := by
  refine ⟨rfl, ?_, rfl⟩
  decide

theorem lookupId_insertOrReplace (t : List EmailModel) (e : EmailModel) (i : String) :
    lookupId (insertOrReplace t e) i = if i = e.id then some e else lookupId t i := by
  induction t with
  | nil =>
      by_cases h : i = e.id
      · simp [lookupId, insertOrReplace, List.find?_cons, h]
      · simp [lookupId, insertOrReplace, List.find?_cons, h,
          beq_eq_false_iff_ne.mpr (fun hh => h hh.symm)]
  | cons a t ih =>
      by_cases ha : a.id = e.id
      · have hdrop : insertOrReplace (a :: t) e = insertOrReplace t e := by
          simp [insertOrReplace, List.filter_cons, ha]
        rw [hdrop, ih]
        by_cases h : i = e.id
        · simp [h]
        · have haf : (a.id == i) = false :=
            beq_eq_false_iff_ne.mpr (fun hh => h (hh.symm.trans ha))
          simp [h, lookupId, List.find?_cons, haf]
      · have hkeep : insertOrReplace (a :: t) e = a :: insertOrReplace t e := by
          simp [insertOrReplace, List.filter_cons, bne_iff_ne.mpr ha]
        rw [hkeep]
        by_cases hai : a.id = i
        · have h : ¬ i = e.id := fun hh => ha (hai.trans hh)
          simp [lookupId, List.find?_cons, hai, h]
        · simp only [lookupId, List.find?_cons, beq_eq_false_iff_ne.mpr hai]
          exact ih


theorem tableIds_insertOrReplace (t : List EmailModel) (e : EmailModel) :
    tableIds (insertOrReplace t e) =
      (tableIds t).filter (fun s => s != e.id) ++ [e.id] := by
  simp only [tableIds, insertOrReplace, List.map_append, List.map_cons, List.map_nil]
  rw [List.filter_map]
  rfl

theorem nodup_insertOrReplace {t : List EmailModel} (e : EmailModel)
    (h : (tableIds t).Nodup) : (tableIds (insertOrReplace t e)).Nodup := by
  rw [tableIds_insertOrReplace]
  rw [List.nodup_append]
  refine ⟨h.filter _, List.nodup_singleton _, ?_⟩
  intro s hs hmem
  rcases List.mem_singleton.mp hmem with rfl
  have := List.of_mem_filter hs
  simp at this

theorem hasId_insertOrReplace_self (t : List EmailModel) (e : EmailModel) :
    hasId (insertOrReplace t e) e.id = true := by
  simp [hasId, insertOrReplace, List.any_append]

theorem hasId_insertOrReplace_mono {t : List EmailModel} {i : String}
    (e : EmailModel) (h : hasId t i = true) :
    hasId (insertOrReplace t e) i = true := by
  by_cases he : i = e.id
  · rw [he]; exact hasId_insertOrReplace_self t e
  · simp only [hasId, insertOrReplace, List.any_append, List.any_filter,
      Bool.or_eq_true] at *
    left
    rcases List.any_eq_true.mp h with ⟨row, hrow, hid⟩
    refine List.any_eq_true.mpr ⟨row, hrow, ?_⟩
    have hri : row.id = i := beq_iff_eq.mp hid
    simp [hri, he, bne_iff_ne, hid]

theorem length_insertOrReplace_of_hasId :
    ∀ (t : List EmailModel) (e : EmailModel), (tableIds t).Nodup →
      hasId t e.id = true → (insertOrReplace t e).length = t.length := by
  intro t
  induction t with
  | nil => intro e _ h; simp [hasId] at h
  | cons a t ih =>
      intro e hnd h
      have hnd' : (tableIds t).Nodup ∧ a.id ∉ tableIds t := by
        simp only [tableIds, List.map_cons, List.nodup_cons] at hnd
        exact ⟨hnd.2, hnd.1⟩
      by_cases ha : a.id = e.id
      · have hfix : t.filter (fun row => row.id != e.id) = t := by
          apply List.filter_eq_self.mpr
          intro row hrow
          refine bne_iff_ne.mpr (fun hc => ?_)
          exact hnd'.2 (by
            rw [ha, ← hc]
            exact List.mem_map.mpr ⟨row, hrow, rfl⟩)
        simp [insertOrReplace, List.filter_cons, ha, hfix]
      · have h' : hasId t e.id = true := by
          simp only [hasId, List.any_cons, Bool.or_eq_true] at h
          rcases h with h | h
          · exact absurd (beq_iff_eq.mp h) ha
          · exact h
        have hk : insertOrReplace (a :: t) e = a :: insertOrReplace t e := by
          simp [insertOrReplace, List.filter_cons, bne_iff_ne.mpr ha]
        rw [hk]
        simp only [List.length_cons]
        rw [ih e hnd'.1 h']

theorem foldl_save_hasId_mono {i : String} :
    ∀ (es : List EmailModel) (t : List EmailModel), hasId t i = true →
      hasId (es.foldl save t) i = true := by
  intro es
  induction es with
  | nil => intro t h; exact h
  | cons e es ih =>
      intro t h
      exact ih (save t e) (hasId_insertOrReplace_mono e h)

theorem foldl_save_all_present :
    ∀ (es : List EmailModel) (t : List EmailModel), ∀ e ∈ es,
      hasId (es.foldl save t) e.id = true := by
  intro es
  induction es with
  | nil => intro t e he; cases he
  | cons a es ih =>
      intro t e he
      rcases List.mem_cons.mp he with rfl | he
      · exact foldl_save_hasId_mono es (save t e) (hasId_insertOrReplace_self t e)
      · exact ih (save t a) e he

theorem nodup_load_emails :
    ∀ (es : List EmailModel) (t : List EmailModel), (tableIds t).Nodup →
      (tableIds (load_emails t es)).Nodup := by
  intro es
  induction es with
  | nil => intro t h; exact h
  | cons e es ih =>
      intro t h
      exact ih (save t e) (nodup_insertOrReplace e h)

theorem length_load_emails_of_all_present :
    ∀ (es : List EmailModel) (t : List EmailModel), (tableIds t).Nodup →
      (∀ e ∈ es, hasId t e.id = true) →
      (load_emails t es).length = t.length := by
  intro es
  induction es with
  | nil => intro t _ _; rfl
  | cons a es ih =>
      intro t hnd h
      have h1 : (save t a).length = t.length :=
        length_insertOrReplace_of_hasId t a hnd (h a (by simp))
      have h2 : (load_emails (save t a) es).length = (save t a).length :=
        ih (save t a) (nodup_insertOrReplace a hnd)
          (fun e he => hasId_insertOrReplace_mono a (h e (by simp [he])))
      simp only [load_emails, List.foldl_cons] at *
      rw [h2, h1]

theorem lastWithId_cons (e : EmailModel) (es : List EmailModel) (i : String) :
    lastWithId (e :: es) i =
      (lastWithId es i).or (if e.id == i then some e else none) := by
  simp only [lastWithId, List.reverse_cons, List.find?_append]
  congr 1
  cases h : (e.id == i) <;> simp [List.find?_cons, h]

theorem lookupId_load_emails :
    ∀ (es : List EmailModel) (t : List EmailModel) (i : String),
      lookupId (load_emails t es) i =
        match lastWithId es i with
        | some e => some e
        | none => lookupId t i := by
  intro es
  induction es with
  | nil => intro t i; rfl
  | cons e es ih =>
      intro t i
      have step : load_emails t (e :: es) = load_emails (save t e) es := rfl
      rw [step, ih (save t e) i, lastWithId_cons]
      cases h : lastWithId es i with
      | some x => simp
      | none =>
          by_cases hi : e.id = i
          · have hb : (e.id == i) = true := beq_iff_eq.mpr hi
            simp [Option.or, hb, save, lookupId_insertOrReplace, hi.symm]
          · have hb : (e.id == i) = false := beq_eq_false_iff_ne.mpr hi
            have hne : ¬ i = e.id := fun hh => hi hh.symm
            simp [Option.or, hb, save, lookupId_insertOrReplace, hne]

/-- CLAIM C1 (amended): the ETL load into the Record Store is a
per-record idempotent upsert-replace ("insert or replace on id
conflict"): after the load, every id carried by the transformed
records maps to the last record bearing it (existing rows are
overwritten, not skipped), rows with other ids are looked up as
before, no duplicate id is created, and repeating the load leaves the
row count unchanged. -/
theorem etl_load_upsert_replace (t es : List EmailModel)
    (hnd : (tableIds t).Nodup) :
    (∀ i, lookupId (load_emails t es) i =
        match lastWithId es i with
        | some e => some e
        | none => lookupId t i) ∧
    (tableIds (load_emails t es)).Nodup ∧
    (load_emails (load_emails t es) es).length = (load_emails t es).length := by
  refine ⟨fun i => lookupId_load_emails es t i, nodup_load_emails es t hnd, ?_⟩
  exact length_load_emails_of_all_present es (load_emails t es)
    (nodup_load_emails es t hnd)
    (fun e he => foldl_save_all_present es t e he)

/-- Witness for C1's amended theorem at a concrete store and batch. -/
theorem etl_load_upsert_replace_witness :
    (load_emails (load_emails [c1_stored] [c1_incoming]) [c1_incoming]).length =
      (load_emails [c1_stored] [c1_incoming]).length :=
  (etl_load_upsert_replace [c1_stored] [c1_incoming] (by decide)).2.2

/-- CLAIM C5 (counterexample): on a record whose subject is the single
space " " (non-empty) and whose body is empty, the code produces the
placeholder "Empty email" rather than the claimed
"Subject: " ++ " " concatenation — the code strips whitespace and
treats whitespace-only fields as empty, which the claim's literal
"non-empty subject" reading does not. -/
theorem prepare_content_strip_counterexample :
    prepare_email_content c5_record = "Empty email" ∧
    specDocumentText c5_record = "Subject:  " ∧
    prepare_email_content c5_record ≠ specDocumentText c5_record := by
  refine ⟨rfl, rfl, ?_⟩
  decide

/-- CLAIM C5 (amended): the indexed document text is the concatenation
of the whitespace-stripped subject and body under the fixed labels
"Subject: " and "Body: ", joined by a blank line, where a field that
is empty or whitespace-only is omitted; when both are omitted the text
is exactly the literal "Empty email" (in particular, a record with
empty subject and empty body yields exactly "Empty email"). -/
theorem prepare_content_is_stripped_document (e : EmailModel) :
    prepare_email_content e = strippedDocumentText e ∧
    (e.subject = "" → e.body = "" → prepare_email_content e = "Empty email") := by
  have hs : (e.subject != "" && pyStrip e.subject != "") = (pyStrip e.subject != "") := by
    by_cases h : e.subject = ""
    · rw [h]; decide
    · simp [bne_iff_ne.mpr h]
  have hb : (e.body != "" && pyStrip e.body != "") = (pyStrip e.body != "") := by
    by_cases h : e.body = ""
    · rw [h]; decide
    · simp [bne_iff_ne.mpr h]
  constructor
  · unfold prepare_email_content strippedDocumentText
    rw [hs, hb]
    cases hcs : (pyStrip e.subject != "") <;> cases hcb : (pyStrip e.body != "") <;>
      simp [pyJoin, String.append_assoc]
    rw [← String.append_assoc "\n\n" "Body: " (pyStrip e.body)]
    rfl
  · intro h1 h2
    unfold prepare_email_content
    rw [h1, h2]
    rfl

/-- Witness for C5's amended theorem: a record with empty subject and
body yields exactly the placeholder. -/
theorem prepare_content_stripped_witness :
    prepare_email_content { id := "w" } = "Empty email" :=
  (prepare_content_is_stripped_document { id := "w" }).2 rfl rfl

/-! ### Helper lemmas on the transformer -/

theorem exOk_bind {α β : Type} (ea : Except String α) (g : α → Except String β) :
    exOk (ea.bind g) = true ↔ ∃ a, ea = .ok a ∧ exOk (g a) = true := by
  cases ea <;> simp [Except.bind, exOk]

theorem transformEmails_append (now : Nat) (xs ys : List RawEmail) :
    transformEmails now (xs ++ ys) =
      transformEmails now xs ++ transformEmails now ys := by
  simp [transformEmails]

theorem transformEmails_single_err {now : Nat} {r : RawEmail}
    (h : exOk (transformOne now r) = false) : transformEmails now [r] = [] := by
  simp only [transformEmails, List.filterMap]
  cases hr : transformOne now r with
  | ok e => rw [hr] at h; simp [exOk] at h
  | error m => simp [hr, exToOption]

theorem transformEmails_all_ok_length (now : Nat) :
    ∀ xs : List RawEmail, (∀ r ∈ xs, exOk (transformOne now r) = true) →
      (transformEmails now xs).length = xs.length := by
  intro xs
  induction xs with
  | nil => intro _; rfl
  | cons r xs ih =>
      intro h
      have hr := h r (by simp)
      cases hx : transformOne now r with
      | error m => rw [hx] at hr; simp [exOk] at hr
      | ok e =>
          have hstep : transformEmails now (r :: xs) =
              e :: transformEmails now xs := by
            simp only [transformEmails, List.filterMap_cons, hx]
            rfl
          rw [hstep, List.length_cons, List.length_cons,
            ih (fun r hrr => h r (by simp [hrr]))]

/-- CLAIM C4: the transformer never raises for a single malformed raw
record: the bad record is dropped, the records around it are
transformed in order, and a batch of N raw records in which exactly
one entry fails field extraction yields N-1 records. -/
theorem transform_tolerates_bad_record (now : Nat) (xs ys : List RawEmail)
    (bad : RawEmail)
    (hbad : exOk (transformOne now bad) = false)
    (hok : ∀ r ∈ xs ++ ys, exOk (transformOne now r) = true) :
    transformEmails now (xs ++ bad :: ys) =
      transformEmails now xs ++ transformEmails now ys ∧
    (transformEmails now (xs ++ bad :: ys)).length = (xs ++ bad :: ys).length - 1 := by
  have hsplit : xs ++ bad :: ys = xs ++ [bad] ++ ys := by simp
  have heq : transformEmails now (xs ++ bad :: ys) =
      transformEmails now xs ++ transformEmails now ys := by
    rw [hsplit, transformEmails_append, transformEmails_append,
      transformEmails_single_err hbad]
    simp
  refine ⟨heq, ?_⟩
  rw [heq]
  have hx : (transformEmails now xs).length = xs.length :=
    transformEmails_all_ok_length now xs
      (fun r hr => hok r (List.mem_append.mpr (Or.inl hr)))
  have hy : (transformEmails now ys).length = ys.length :=
    transformEmails_all_ok_length now ys
      (fun r hr => hok r (List.mem_append.mpr (Or.inr hr)))
  simp only [List.length_append, List.length_cons, hx, hy]
  omega

/-- Witness for C4: a two-record batch whose second entry has a string
in its `from` field (indexing it yields a string whose attribute
lookup raises) produces exactly one record. -/
theorem transform_tolerates_bad_record_witness :
    exOk (transformOne 0 c4_bad) = false ∧
    (transformEmails 0 ([c4_good] ++ c4_bad :: [])).length =
      ([c4_good] ++ c4_bad :: []).length - 1 :=
  ⟨by decide, (transform_tolerates_bad_record 0 [c4_good] [] c4_bad
      (by decide) (by decide)).2⟩

theorem validateModel_ok_email_parts {now : Nat} {f : RawFields}
    (h : exOk (validateModel now f) = true) :
    exOk (asEmailStr f.from_emailv) = true ∧ exOk (asEmailStr f.to_emailv) = true := by
  unfold validateModel at h
  rw [exOk_bind] at h
  obtain ⟨i, h1, h⟩ := h
  rw [exOk_bind] at h
  obtain ⟨tid, h2, h⟩ := h
  rw [exOk_bind] at h
  obtain ⟨subj, h3, h⟩ := h
  rw [exOk_bind] at h
  obtain ⟨bdy, h4, h⟩ := h
  rw [exOk_bind] at h
  obtain ⟨fnm, h5, h⟩ := h
  rw [exOk_bind] at h
  obtain ⟨fem, h6, h⟩ := h
  rw [exOk_bind] at h
  obtain ⟨tnm, h7, h⟩ := h
  rw [exOk_bind] at h
  obtain ⟨tem, h8, h⟩ := h
  exact ⟨by simp [h6, exOk], by simp [h8, exOk]⟩

theorem asEmailStr_rejects {s : String} (hne : s ≠ "")
    (hat : pyContains s '@' = false) :
    asEmailStr (JVal.str s) = .error "Invalid email format" := by
  have hcond : (s != "" && !(pyContains s '@')) = true := by
    rw [Bool.and_eq_true]
    exact ⟨bne_iff_ne.mpr hne, by rw [hat]; rfl⟩
  simp [asEmailStr, asStr, Except.bind, hcond]

/-- CLAIM C10: the transformer also drops a raw record whose extracted
sender or recipient email is a non-empty string without an at sign —
model validation rejects it, the per-record handler discards the
record, and the rest of the batch still succeeds without it. -/
theorem transform_drops_invalid_email_format (now : Nat) (r : RawEmail)
    (f : RawFields) (s : String)
    (hf : extractFields r = .ok f)
    (hfe : f.from_emailv = JVal.str s ∨ f.to_emailv = JVal.str s)
    (hne : s ≠ "") (hat : pyContains s '@' = false) :
    exOk (transformOne now r) = false ∧
    ∀ xs ys, transformEmails now (xs ++ r :: ys) =
      transformEmails now xs ++ transformEmails now ys := by
  have herr : exOk (transformOne now r) = false := by
    by_contra hcon
    have hok : exOk (transformOne now r) = true := by
      cases hx : exOk (transformOne now r)
      · exact absurd hx hcon
      · rfl
    have hval : exOk (validateModel now f) = true := by
      unfold transformOne at hok
      rw [exOk_bind] at hok
      obtain ⟨f', hf', hok⟩ := hok
      rw [hf] at hf'
      cases hf'
      exact hok
    have hparts := validateModel_ok_email_parts hval
    rcases hfe with hfe | hfe
    · rw [hfe, asEmailStr_rejects hne hat] at hparts
      simp [exOk] at hparts
    · rw [hfe, asEmailStr_rejects hne hat] at hparts
      simp [exOk] at hparts
  refine ⟨herr, fun xs ys => ?_⟩
  have hsplit : xs ++ r :: ys = xs ++ [r] ++ ys := by simp
  rw [hsplit, transformEmails_append, transformEmails_append,
    transformEmails_single_err herr]
  simp

/-- Witness for C10 at a concrete raw record whose sender address is
"bademail". -/
theorem transform_drops_invalid_email_format_witness :
    exOk (transformOne 0 c10_raw) = false ∧
    transformEmails 0 ([c4_good] ++ c10_raw :: []) = transformEmails 0 [c4_good] :=
  ⟨(transform_drops_invalid_email_format 0 c10_raw c10_fields "bademail"
      rfl (Or.inl rfl) (by decide) (by decide)).1,
   by
    have h := (transform_drops_invalid_email_format 0 c10_raw c10_fields "bademail"
      rfl (Or.inl rfl) (by decide) (by decide)).2 [c4_good] []
    simpa using h⟩

/-! ### Helper lemmas on the job table and the orchestrator -/

theorem find_update_jobs (jobs : List ETLJobRow) (i : Nat) (st : ETLJobStatus)
    (n : Nat) (e : Option String) :
    ((jobs.map (fun j => if j.id == i then
        { j with status := st, records_processed := n, error_message := e }
      else j)).find? (fun j => j.id == i)) =
    (jobs.find? (fun j => j.id == i)).map (fun j =>
      { j with status := st, records_processed := n, error_message := e }) := by
  induction jobs with
  | nil => rfl
  | cons a jobs ih =>
      cases h : (a.id == i) with
      | true =>
          have ht : a.id = i := beq_iff_eq.mp h
          subst ht
          simp [List.find?_cons]
      | false =>
          have hn : ¬ a.id = i := beq_eq_false_iff_ne.mp h
          simp only [List.map_cons, List.find?_cons, h, Bool.false_eq_true,
            if_false, ih]

theorem get_job_complete_self (db : DBState) (i : Nat) (st : ETLJobStatus)
    (n : Nat) (e : Option String) :
    get_job (complete_job db i st n e) i =
      (get_job db i).map (fun j =>
        { j with status := st, records_processed := n, error_message := e }) := by
  simp only [get_job, complete_job]
  exact find_update_jobs db.jobs i st n e

theorem get_job_complete_ne (db : DBState) {i' i : Nat} (h : i' ≠ i)
    (st : ETLJobStatus) (n : Nat) (e : Option String) :
    get_job (complete_job db i' st n e) i = get_job db i := by
  simp only [get_job, complete_job]
  induction db.jobs with
  | nil => rfl
  | cons a jobs ih =>
      have hproj : ({ a with status := st, records_processed := n, error_message := e } : ETLJobRow).id = a.id := rfl
      cases h1 : (a.id == i') with
      | true =>
          cases h2 : (a.id == i) with
          | true => exact absurd ((beq_iff_eq.mp h1).symm.trans (beq_iff_eq.mp h2)) h
          | false =>
              simp only [List.map_cons, List.find?_cons, h1, eq_self_iff_true,
                if_true, hproj, h2, ih]
      | false =>
          cases h2 : (a.id == i) with
          | true =>
              simp only [List.map_cons, List.find?_cons, h1, Bool.false_eq_true,
                if_false, h2, ih]
          | false =>
              simp only [List.map_cons, List.find?_cons, h1, Bool.false_eq_true,
                if_false, h2, ih]

theorem get_job_start_ne (db : DBState) (jt : String) (st : ETLJobStatus)
    {i : Nat} (h : i ≠ db.nextJobId) :
    get_job (start_job db jt st).2 i = get_job db i := by
  simp only [get_job, start_job, List.find?_append]
  cases h1 : db.jobs.find? (fun j => j.id == i) with
  | some j => rfl
  | none =>
      simp only [Option.or]
      simp [List.find?_cons, beq_eq_false_iff_ne.mpr (fun hc => h hc.symm)]

theorem get_job_start_self (db : DBState) (jt : String) (st : ETLJobStatus)
    (hf : jobs_fresh db) :
    get_job (start_job db jt st).2 db.nextJobId =
      some ⟨db.nextJobId, jt, st, 0, none⟩ := by
  simp only [get_job, start_job, List.find?_append]
  have h1 : db.jobs.find? (fun j => j.id == db.nextJobId) = none := by
    apply List.find?_eq_none.mpr
    intro j hj
    simp only [beq_iff_eq]
    exact Nat.ne_of_lt (hf j hj)
  rw [h1]
  simp [List.find?_cons]

theorem jobs_fresh_start (db : DBState) (jt : String) (st : ETLJobStatus)
    (h : jobs_fresh db) : jobs_fresh (start_job db jt st).2 := by
  intro j hj
  simp only [start_job, List.mem_append, List.mem_singleton] at hj
  rcases hj with hj | rfl
  · exact Nat.lt_succ_of_lt (h j hj)
  · exact Nat.lt_succ_self _

theorem jobs_fresh_complete (db : DBState) (i : Nat) (st : ETLJobStatus)
    (n : Nat) (e : Option String) (h : jobs_fresh db) :
    jobs_fresh (complete_job db i st n e) := by
  intro j hj
  simp only [complete_job, List.mem_map] at hj
  obtain ⟨j0, hj0, rfl⟩ := hj
  by_cases hid : (j0.id == i) = true
  · simp only [hid, if_pos]
    exact h j0 hj0
  · simp only [hid, if_neg, not_false_iff]
    split
    · exact h j0 hj0
    · exact h j0 hj0

theorem jobs_fresh_emails (db : DBState) (x : List EmailModel)
    (h : jobs_fresh db) : jobs_fresh { db with emails := x } := h

theorem run_load_emails_all_ok (env : EtlEnv)
    (hsave : ∀ e, env.saveFail e = none) :
    ∀ (es t : List EmailModel), run_load_emails env t es = (load_emails t es, none) := by
  intro es
  induction es with
  | nil => intro t; rfl
  | cons e es ih =>
      intro t
      simp only [run_load_emails, hsave e]
      exact ih (save t e)

theorem run_etl_init_fail {env : EtlEnv} {m : String}
    (hi : (if env.vsIsNone then env.vsInitFail else none) = some m)
    (db : DBState) (vs : VSState) (now : Nat) :
    run_etl env db vs now =
      (.error m, complete_job (start_etl_job db).2 db.nextJobId .failed 0 (some m),
       vs, [(db.nextJobId, .running), (db.nextJobId, .failed)]) := by
  simp [run_etl, start_etl_job, start_job, hi]

theorem run_etl_fetch_fail {env : EtlEnv} {m : String}
    (hi : (if env.vsIsNone then env.vsInitFail else none) = none)
    (hfe : env.fetchResult = .error m)
    (db : DBState) (vs : VSState) (now : Nat) :
    run_etl env db vs now =
      (.error m, complete_job (start_etl_job db).2 db.nextJobId .failed 0 (some m),
       (if env.vsIsNone then { vs with inited := true } else vs),
       [(db.nextJobId, .running), (db.nextJobId, .failed)]) := by
  simp [run_etl, start_etl_job, start_job, hi, hfe]

theorem run_etl_save_fail {env : EtlEnv} {m : String} {raws : List RawEmail}
    (hi : (if env.vsIsNone then env.vsInitFail else none) = none)
    (hfe : env.fetchResult = .ok raws)
    (db : DBState) (vs : VSState) (now : Nat)
    (hsv : (run_load_emails env db.emails (transformEmails now raws)).2 = some m) :
    run_etl env db vs now =
      (.error m,
       complete_job { (start_etl_job db).2 with
          emails := (run_load_emails env db.emails (transformEmails now raws)).1 }
         db.nextJobId .failed 0 (some m),
       (if env.vsIsNone then { vs with inited := true } else vs),
       [(db.nextJobId, .running), (db.nextJobId, .failed)]) := by
  have hemails : (start_etl_job db).2.emails = db.emails := rfl
  simp [run_etl, start_etl_job, start_job, hi, hfe, hemails, hsv]

theorem run_etl_success {env : EtlEnv} {raws : List RawEmail}
    (hi : (if env.vsIsNone then env.vsInitFail else none) = none)
    (hfe : env.fetchResult = .ok raws)
    (db : DBState) (vs : VSState) (now : Nat)
    (hsv : (run_load_emails env db.emails (transformEmails now raws)).2 = none) :
    run_etl env db vs now =
      (.ok ⟨(transformEmails now raws).length, db.nextJobId⟩,
       complete_job { (start_etl_job db).2 with
          emails := (run_load_emails env db.emails (transformEmails now raws)).1 }
         db.nextJobId .completed (transformEmails now raws).length none,
       run_vs_load env (if env.vsIsNone then { vs with inited := true } else vs)
         (transformEmails now raws),
       [(db.nextJobId, .running), (db.nextJobId, .completed)]) := by
  have hemails : (start_etl_job db).2.emails = db.emails := rfl
  simp [run_etl, start_etl_job, start_job, hi, hfe, hemails, hsv]

theorem run_etl_nextJobId (env : EtlEnv) (db : DBState) (vs : VSState) (now : Nat) :
    (run_etl env db vs now).2.1.nextJobId = db.nextJobId + 1 := by
  cases hi : (if env.vsIsNone then env.vsInitFail else none) with
  | some m => rw [run_etl_init_fail hi db vs now]; rfl
  | none =>
      cases hfe : env.fetchResult with
      | error m => rw [run_etl_fetch_fail hi hfe db vs now]; rfl
      | ok raws =>
          cases hsv : (run_load_emails env db.emails (transformEmails now raws)).2 with
          | some m => rw [run_etl_save_fail hi hfe db vs now hsv]; rfl
          | none => rw [run_etl_success hi hfe db vs now hsv]; rfl

theorem run_etl_untouched_job (env : EtlEnv) (db : DBState) (vs : VSState)
    (now : Nat) {i : Nat} (hne : i ≠ db.nextJobId) :
    get_job (run_etl env db vs now).2.1 i = get_job db i := by
  have hcn : db.nextJobId ≠ i := fun hc => hne hc.symm
  cases hi : (if env.vsIsNone then env.vsInitFail else none) with
  | some m =>
      rw [run_etl_init_fail hi db vs now]
      rw [get_job_complete_ne _ hcn]
      exact get_job_start_ne db "email_extraction" .running hne
  | none =>
      cases hfe : env.fetchResult with
      | error m =>
          rw [run_etl_fetch_fail hi hfe db vs now]
          rw [get_job_complete_ne _ hcn]
          exact get_job_start_ne db "email_extraction" .running hne
      | ok raws =>
          cases hsv : (run_load_emails env db.emails (transformEmails now raws)).2 with
          | some m =>
              rw [run_etl_save_fail hi hfe db vs now hsv]
              rw [get_job_complete_ne _ hcn]
              exact get_job_start_ne db "email_extraction" .running hne
          | none =>
              rw [run_etl_success hi hfe db vs now hsv]
              rw [get_job_complete_ne _ hcn]
              exact get_job_start_ne db "email_extraction" .running hne

/-- CLAIM C2: each ETL job's status is written as RUNNING at creation
and receives exactly one terminal write, COMPLETED or FAILED; the job
row then holds that terminal status, freshness of job ids is
preserved, and any subsequent ETL invocation on the resulting store
leaves the job's row untouched — once terminal, the status never
changes.  (The code inserts the job directly as RUNNING, recording the
PENDING→RUNNING transition at creation, as the spec describes.) -/
theorem job_status_monotonic (env : EtlEnv) (db : DBState) (vs : VSState)
    (now : Nat) (hf : jobs_fresh db) :
    ((run_etl env db vs now).2.2.2 =
        [(db.nextJobId, ETLJobStatus.running), (db.nextJobId, ETLJobStatus.completed)] ∧
      (get_job (run_etl env db vs now).2.1 db.nextJobId).map ETLJobRow.status =
        some ETLJobStatus.completed ∨
     (run_etl env db vs now).2.2.2 =
        [(db.nextJobId, ETLJobStatus.running), (db.nextJobId, ETLJobStatus.failed)] ∧
      (get_job (run_etl env db vs now).2.1 db.nextJobId).map ETLJobRow.status =
        some ETLJobStatus.failed) ∧
    jobs_fresh (run_etl env db vs now).2.1 ∧
    ∀ env2 vs2 now2,
      get_job (run_etl env2 (run_etl env db vs now).2.1 vs2 now2).2.1 db.nextJobId =
        get_job (run_etl env db vs now).2.1 db.nextJobId := by
  have huntouched : ∀ env2 vs2 now2,
      get_job (run_etl env2 (run_etl env db vs now).2.1 vs2 now2).2.1 db.nextJobId =
        get_job (run_etl env db vs now).2.1 db.nextJobId := by
    intro env2 vs2 now2
    apply run_etl_untouched_job
    rw [run_etl_nextJobId]
    exact Ne.symm (Nat.succ_ne_self db.nextJobId)
  have hs0 : get_job (start_etl_job db).2 db.nextJobId =
      some ⟨db.nextJobId, "email_extraction", ETLJobStatus.running, 0, none⟩ :=
    get_job_start_self db "email_extraction" ETLJobStatus.running hf
  have hfr0 : jobs_fresh (start_etl_job db).2 :=
    jobs_fresh_start db "email_extraction" ETLJobStatus.running hf
  refine ⟨?_, ?_, huntouched⟩ <;>
  · cases hi : (if env.vsIsNone then env.vsInitFail else none) with
    | some m =>
        rw [run_etl_init_fail hi db vs now]
        first
        | exact jobs_fresh_complete _ _ _ _ _ hfr0
        | · refine Or.inr ⟨rfl, ?_⟩
            rw [get_job_complete_self, hs0]
            rfl
    | none =>
        cases hfe : env.fetchResult with
        | error m =>
            rw [run_etl_fetch_fail hi hfe db vs now]
            first
            | exact jobs_fresh_complete _ _ _ _ _ hfr0
            | · refine Or.inr ⟨rfl, ?_⟩
                rw [get_job_complete_self, hs0]
                rfl
        | ok raws =>
            cases hsv : (run_load_emails env db.emails (transformEmails now raws)).2 with
            | some m =>
                rw [run_etl_save_fail hi hfe db vs now hsv]
                first
                | exact jobs_fresh_complete _ _ _ _ _ hfr0
                | · refine Or.inr ⟨rfl, ?_⟩
                    rw [get_job_complete_self,
                      show get_job ({ (start_etl_job db).2 with
                          emails := (run_load_emails env db.emails
                            (transformEmails now raws)).1 }) db.nextJobId =
                        some ⟨db.nextJobId, "email_extraction",
                          ETLJobStatus.running, 0, none⟩ from hs0]
                    rfl
            | none =>
                rw [run_etl_success hi hfe db vs now hsv]
                first
                | exact jobs_fresh_complete _ _ _ _ _ hfr0
                | · refine Or.inl ⟨rfl, ?_⟩
                    rw [get_job_complete_self,
                      show get_job ({ (start_etl_job db).2 with
                          emails := (run_load_emails env db.emails
                            (transformEmails now raws)).1 }) db.nextJobId =
                        some ⟨db.nextJobId, "email_extraction",
                          ETLJobStatus.running, 0, none⟩ from hs0]
                    rfl

/-- Witness for C2: a completed run's job row is untouched by a
subsequent failing run. -/
theorem job_status_monotonic_witness :
    get_job (run_etl env_c7 (run_etl env_c6 db0 vs0 0).2.1 vs0 0).2.1 db0.nextJobId =
      get_job (run_etl env_c6 db0 vs0 0).2.1 db0.nextJobId :=
  (job_status_monotonic env_c6 db0 vs0 0
    (by intro j hj; simp [db0] at hj)).2.2 env_c7 vs0 0

/-- CLAIM C6: when the Search Index load stage fails, the failure is
absorbed: the run still returns success, the job transitions to
COMPLETED with records_processed equal to the count of transformed
records, and no exception from the index load reaches the caller. -/
theorem index_failure_job_completes (env : EtlEnv) (db : DBState) (vs : VSState)
    (now : Nat) (raws : List RawEmail) (m : String)
    (hf : jobs_fresh db)
    (hvs : env.vsIsNone = false)
    (hfetch : env.fetchResult = .ok raws)
    (hsave : ∀ e, env.saveFail e = none)
    (hadd : env.vsAddFail = some m) :
    (run_etl env db vs now).1 =
      .ok ⟨(transformEmails now raws).length, db.nextJobId⟩ ∧
    get_job (run_etl env db vs now).2.1 db.nextJobId =
      some ⟨db.nextJobId, "email_extraction", ETLJobStatus.completed,
            (transformEmails now raws).length, none⟩ := by
  have hi : (if env.vsIsNone then env.vsInitFail else none) = none := by
    rw [hvs]
    rfl
  have hsv : (run_load_emails env db.emails (transformEmails now raws)).2 = none := by
    rw [run_load_emails_all_ok env hsave]
  rw [run_etl_success hi hfetch db vs now hsv]
  refine ⟨rfl, ?_⟩
  rw [get_job_complete_self,
    show get_job ({ (start_etl_job db).2 with
        emails := (run_load_emails env db.emails (transformEmails now raws)).1 })
      db.nextJobId =
      some ⟨db.nextJobId, "email_extraction", ETLJobStatus.running, 0, none⟩ from
    get_job_start_self db "email_extraction" ETLJobStatus.running hf]
  rfl

/-- Witness for C6: with a raising index batch add, the run still
returns success for the one transformed record. -/
theorem index_failure_job_completes_witness :
    (run_etl env_c6 db0 vs0 0).1 =
      .ok ⟨(transformEmails 0 [c4_good]).length, db0.nextJobId⟩ :=
  (index_failure_job_completes env_c6 db0 vs0 0 [c4_good] "index down"
    (by intro j hj; simp [db0] at hj) rfl rfl (fun e => rfl) rfl).1

/-- CLAIM C7: every exception raised inside the run after job creation
(vector-store init, fetch, or a Record Store save — the per-record
transform and index-load failures are absorbed earlier) marks the job
FAILED with exactly the exception's message and is re-raised to the
caller unchanged. -/
theorem orchestrator_fails_job_and_reraises (env : EtlEnv) (db : DBState)
    (vs : VSState) (now : Nat) (hf : jobs_fresh db) :
    (∀ m, (run_etl env db vs now).1 = .error m →
      get_job (run_etl env db vs now).2.1 db.nextJobId =
        some ⟨db.nextJobId, "email_extraction", ETLJobStatus.failed, 0, some m⟩) ∧
    (∀ m, (if env.vsIsNone then env.vsInitFail else none) = none →
      env.fetchResult = .error m → (run_etl env db vs now).1 = .error m) ∧
    (∀ raws m, (if env.vsIsNone then env.vsInitFail else none) = none →
      env.fetchResult = .ok raws →
      (run_load_emails env db.emails (transformEmails now raws)).2 = some m →
      (run_etl env db vs now).1 = .error m) := by
  have hs0 : get_job (start_etl_job db).2 db.nextJobId =
      some ⟨db.nextJobId, "email_extraction", ETLJobStatus.running, 0, none⟩ :=
    get_job_start_self db "email_extraction" ETLJobStatus.running hf
  refine ⟨?_, ?_, ?_⟩
  · intro m hm
    cases hi : (if env.vsIsNone then env.vsInitFail else none) with
    | some m' =>
        rw [run_etl_init_fail hi db vs now] at hm ⊢
        have hmm : m' = m := by simpa using hm
        subst hmm
        rw [get_job_complete_self, hs0]
        rfl
    | none =>
        cases hfe : env.fetchResult with
        | error m' =>
            rw [run_etl_fetch_fail hi hfe db vs now] at hm ⊢
            have hmm : m' = m := by simpa using hm
            subst hmm
            rw [get_job_complete_self, hs0]
            rfl
        | ok raws =>
            cases hsv : (run_load_emails env db.emails (transformEmails now raws)).2 with
            | some m' =>
                rw [run_etl_save_fail hi hfe db vs now hsv] at hm ⊢
                have hmm : m' = m := by simpa using hm
                subst hmm
                rw [get_job_complete_self,
                  show get_job ({ (start_etl_job db).2 with
                      emails := (run_load_emails env db.emails
                        (transformEmails now raws)).1 }) db.nextJobId =
                    some ⟨db.nextJobId, "email_extraction",
                      ETLJobStatus.running, 0, none⟩ from hs0]
                rfl
            | none =>
                rw [run_etl_success hi hfe db vs now hsv] at hm
                exact absurd hm (by simp)
  · intro m hi hfe
    rw [run_etl_fetch_fail hi hfe db vs now]
  · intro raws m hi hfe hsv
    rw [run_etl_save_fail hi hfe db vs now hsv]

/-- Witness for C7: a failing fetch fails the job with the same message
and re-raises it. -/
theorem orchestrator_fails_job_and_reraises_witness :
    (run_etl env_c7 db0 vs0 0).1 = .error "neterr" ∧
    get_job (run_etl env_c7 db0 vs0 0).2.1 db0.nextJobId =
      some ⟨db0.nextJobId, "email_extraction", ETLJobStatus.failed, 0,
        some "neterr"⟩ := by
  have T := orchestrator_fails_job_and_reraises env_c7 db0 vs0 0
    (by intro j hj; simp [db0] at hj)
  have h1 := T.2.1 "neterr" rfl rfl
  exact ⟨h1, T.1 "neterr" h1⟩

/-! ### The fetcher's paging contract -/

theorem fetch_loop_spec (provider : Nat → Option String → FetchPage)
    (maxE pageSize : Nat) :
    ∀ (fuel : Nat) (acc : List Nat) (tok : Option String)
      (tr : List (Nat × FetchPage)) (res : List Nat)
      (trF : List (Nat × FetchPage)),
      fetch_loop provider maxE pageSize fuel acc tok tr = some (res, trF) →
      ∃ trNew, trF = tr ++ trNew ∧
        res = acc ++ ((trNew.map (fun x => x.2.data)).flatten) ∧
        traceConform maxE pageSize acc.length trNew ∧
        (acc.length < maxE → trNew ≠ []) := by
  intro fuel
  induction fuel with
  | zero =>
      intro acc tok tr res trF h
      exact absurd h (by simp [fetch_loop])
  | succ fuel ih =>
      intro acc tok tr res trF h
      simp only [fetch_loop] at h
      by_cases hlt : acc.length < maxE
      · rw [if_pos hlt] at h
        cases hc : cursorTruthy
            (provider (min pageSize (maxE - acc.length)) tok).next_cursor with
        | false =>
            rw [hc] at h
            simp only [Bool.not_false, if_true, Option.some.injEq,
              Prod.mk.injEq] at h
            obtain ⟨h1, h2⟩ := h
            refine ⟨[(min pageSize (maxE - acc.length),
                provider (min pageSize (maxE - acc.length)) tok)],
              h2.symm, ?_, ?_, fun _ => by simp⟩
            · rw [← h1]; simp
            · exact ⟨hlt, rfl, fun _ => Or.inl hc, fun hne => absurd rfl hne,
                trivial⟩
        | true =>
            rw [hc] at h
            simp only [Bool.not_true, Bool.false_eq_true, if_false] at h
            by_cases hm : maxE ≤
                (acc ++ (provider (min pageSize (maxE - acc.length)) tok).data).length
            · rw [if_pos hm] at h
              simp only [Option.some.injEq, Prod.mk.injEq] at h
              obtain ⟨h1, h2⟩ := h
              refine ⟨[(min pageSize (maxE - acc.length),
                  provider (min pageSize (maxE - acc.length)) tok)],
                h2.symm, ?_, ?_, fun _ => by simp⟩
              · rw [← h1]; simp
              · refine ⟨hlt, rfl, fun _ => Or.inr ?_, fun hne => absurd rfl hne,
                  trivial⟩
                simpa using hm
            · rw [if_neg hm] at h
              obtain ⟨trNew', ht', hr', hc', hne'⟩ := ih _ _ _ _ _ h
              have hlt2 : (acc ++
                  (provider (min pageSize (maxE - acc.length)) tok).data).length <
                  maxE := Nat.lt_of_not_le hm
              have hlen : (acc ++
                  (provider (min pageSize (maxE - acc.length)) tok).data).length =
                  acc.length +
                  (provider (min pageSize (maxE - acc.length)) tok).data.length :=
                List.length_append _ _
              refine ⟨(min pageSize (maxE - acc.length),
                  provider (min pageSize (maxE - acc.length)) tok) :: trNew',
                by rw [ht']; simp, ?_, ?_, fun _ => by simp⟩
              · rw [hr']; simp
              · refine ⟨hlt, rfl,
                  fun hnil => absurd hnil (hne' hlt2),
                  fun _ => ⟨hc, by rw [← hlen]; exact hlt2⟩, ?_⟩
                rw [← hlen]
                exact hc'
      · rw [if_neg hlt] at h
        simp only [Option.some.injEq, Prod.mk.injEq] at h
        obtain ⟨h1, h2⟩ := h
        refine ⟨[], by rw [List.append_nil]; exact h2.symm, ?_, trivial,
          fun hcon => absurd hcon hlt⟩
        rw [← h1]
        simp

/-- CLAIM C8 (amended): for every terminating call, with the Python
`or`-defaulting applied to the parameters (None and 0 fall back to the
defaults 10 and 5), the fetcher returns at most the effective max
records, in provider-return order (a prefix of the concatenated page
data, truncated to the max), each page request asks for exactly
min(effective page size, effective max - accumulated), and paging
stops exactly when a response carries no truthy cursor or the
accumulated count reaches the max. -/
theorem fetch_emails_paging_contract (provider : Nat → Option String → FetchPage)
    (maxEmails emailsPerPage : Option Nat) (fuel : Nat)
    (emails : List Nat) (tr : List (Nat × FetchPage))
    (h : fetch_emails provider maxEmails emailsPerPage fuel = some (emails, tr)) :
    emails.length ≤ effectiveMax maxEmails ∧
    emails = ((tr.map (fun x => x.2.data)).flatten).take (effectiveMax maxEmails) ∧
    traceConform (effectiveMax maxEmails) (effectivePerPage emailsPerPage) 0 tr := by
  simp only [fetch_emails] at h
  cases hl : fetch_loop provider (effectiveMax maxEmails)
      (effectivePerPage emailsPerPage) fuel [] none [] with
  | none => rw [hl] at h; simp at h
  | some r =>
      rw [hl] at h
      simp only [Option.map_some', Option.some.injEq, Prod.mk.injEq] at h
      obtain ⟨he, ht⟩ := h
      obtain ⟨trNew, htr, hres, hconf, _⟩ :=
        fetch_loop_spec provider (effectiveMax maxEmails)
          (effectivePerPage emailsPerPage) fuel [] none [] r.1 r.2 (by rw [hl])
      simp only [List.nil_append] at htr hres
      have htt : trNew = tr := htr.symm.trans ht
      refine ⟨?_, ?_, ?_⟩
      · rw [← he, List.length_take]
        exact min_le_left _ _
      · rw [← he, hres, htt]
      · rw [← htt]
        exact hconf

/-- Witness for C8's amended theorem: a two-page run whose second page
over-delivers is truncated to the effective max, with conforming
per-page limits. -/
theorem fetch_emails_paging_contract_witness :
    fetch_emails c8_provider2 (some 4) (some 3) 10 = some ([1, 2, 3, 4], c8_trace) ∧
    [1, 2, 3, 4].length ≤ effectiveMax (some 4) :=
  ⟨rfl, (fetch_emails_paging_contract c8_provider2 (some 4) (some 3) 10
    [1, 2, 3, 4] c8_trace rfl).1⟩

/-- CLAIM C8 (counterexample): called with max_count = 0, the fetcher
does not return at most 0 records: line 30's `max_emails or
self.MAX_EMAILS` replaces 0 by the default 10, and one record comes
back. -/
theorem fetch_zero_max_returns_records :
    (fetch_emails c8_provider (some 0) (some 5) 10).map (fun r => r.1.length) =
      some 1 := by
  rfl

/-! ### The query tools -/

theorem hydrate_scored_all_ok (g : String → Except String (Option EmailModel)) :
    ∀ vrs : List VSResult, (∀ r ∈ vrs, exOk (g r.email_id) = true) →
      hydrate_scored g vrs = .ok (hydrated_scored_pure g vrs) := by
  intro vrs
  induction vrs with
  | nil => intro _; rfl
  | cons r rs ih =>
      intro h
      have hr := h r (by simp)
      cases hg : g r.email_id with
      | error m => rw [hg] at hr; simp [exOk] at hr
      | ok eo =>
          have hrec := ih (fun x hx => h x (by simp [hx]))
          cases eo with
          | none =>
              simp only [hydrate_scored, hg, Except.bind, hrec,
                hydrated_scored_pure, List.filterMap_cons]
          | some e =>
              simp only [hydrate_scored, hg, Except.bind, hrec,
                hydrated_scored_pure, List.filterMap_cons]

theorem hydrate_scored_err (g : String → Except String (Option EmailModel)) :
    ∀ vrs : List VSResult, (∃ r ∈ vrs, exOk (g r.email_id) = false) →
      exOk (hydrate_scored g vrs) = false := by
  intro vrs
  induction vrs with
  | nil => intro h; obtain ⟨r, hr, _⟩ := h; cases hr
  | cons r rs ih =>
      intro h
      obtain ⟨x, hx, hex⟩ := h
      cases hg : g r.email_id with
      | error m => simp [hydrate_scored, hg, Except.bind, exOk]
      | ok eo =>
          rcases List.mem_cons.mp hx with rfl | hx
          · rw [hg] at hex; simp [exOk] at hex
          · have hrec := ih ⟨x, hx, hex⟩
            cases hh : hydrate_scored g rs with
            | error m => simp [hydrate_scored, hg, hh, Except.bind, exOk]
            | ok l => rw [hh] at hrec; simp [exOk] at hrec

theorem hydrate_plain_all_ok (g : String → Except String (Option EmailModel)) :
    ∀ vrs : List VSResult, (∀ r ∈ vrs, exOk (g r.email_id) = true) →
      hydrate_plain g vrs = .ok (hydrated_plain_pure g vrs) := by
  intro vrs
  induction vrs with
  | nil => intro _; rfl
  | cons r rs ih =>
      intro h
      have hr := h r (by simp)
      cases hg : g r.email_id with
      | error m => rw [hg] at hr; simp [exOk] at hr
      | ok eo =>
          have hrec := ih (fun x hx => h x (by simp [hx]))
          cases eo with
          | none =>
              simp only [hydrate_plain, hg, Except.bind, hrec,
                hydrated_plain_pure, List.filterMap_cons]
          | some e =>
              simp only [hydrate_plain, hg, Except.bind, hrec,
                hydrated_plain_pure, List.filterMap_cons]

/-- CLAIM C9: the three voice-facing query tools never raise: a
raising index lookup or store read degrades to an empty result list,
candidate ids that hydrate to nothing are silently skipped, a raising
hydration degrades the whole call to an empty list, and in the
all-successful case each tool returns exactly the summaries of the
hydratable candidates (resp. the formatted recent rows). -/
theorem query_tools_never_raise (env : ToolsEnv) :
    (∀ m, env.vsSearch = .error m → search_emails_tool env = []) ∧
    (∀ vrs, env.vsSearch = .ok vrs →
      (∀ r ∈ vrs, exOk (env.dbGet r.email_id) = true) →
      search_emails_tool env = hydrated_scored_pure env.dbGet vrs) ∧
    (∀ vrs r m, env.vsSearch = .ok vrs → r ∈ vrs →
      env.dbGet r.email_id = .error m → search_emails_tool env = []) ∧
    (∀ m, env.vsByEmail = .error m → search_by_sender_tool env = []) ∧
    (∀ m, env.vsByEmail = .ok [] → env.vsByName = .error m →
      search_by_sender_tool env = []) ∧
    (∀ vrs, env.vsByEmail = .ok vrs → vrs ≠ [] →
      (∀ r ∈ vrs, exOk (env.dbGet r.email_id) = true) →
      search_by_sender_tool env = hydrated_plain_pure env.dbGet vrs) ∧
    (∀ vrs, env.vsByEmail = .ok [] → env.vsByName = .ok vrs →
      (∀ r ∈ vrs, exOk (env.dbGet r.email_id) = true) →
      search_by_sender_tool env = hydrated_plain_pure env.dbGet vrs) ∧
    (∀ m, env.dbRecent = .error m → get_recent_tool env = []) ∧
    (∀ es, env.dbRecent = .ok es → get_recent_tool env = es.map mk_summary) := by
  refine ⟨?_, ?_, ?_, ?_, ?_, ?_, ?_, ?_, ?_⟩
  · intro m hm
    simp [search_emails_tool, hm, Except.bind]
  · intro vrs hok hall
    cases vrs with
    | nil => simp [search_emails_tool, hok, Except.bind, hydrated_scored_pure]
    | cons r rs =>
        simp only [search_emails_tool, hok, Except.bind, List.isEmpty_cons,
          Bool.false_eq_true, if_false]
        rw [hydrate_scored_all_ok env.dbGet (r :: rs) hall]
  · intro vrs r m hok hr hg
    have herr : exOk (hydrate_scored env.dbGet vrs) = false :=
      hydrate_scored_err env.dbGet vrs ⟨r, hr, by rw [hg]; rfl⟩
    cases vrs with
    | nil => cases hr
    | cons x xs =>
        simp only [search_emails_tool, hok, Except.bind, List.isEmpty_cons,
          Bool.false_eq_true, if_false]
        cases hh : hydrate_scored env.dbGet (x :: xs) with
        | error m' => rfl
        | ok l => rw [hh] at herr; simp [exOk] at herr
  · intro m hm
    simp [search_by_sender_tool, hm, Except.bind]
  · intro m h1 h2
    simp [search_by_sender_tool, h1, h2, Except.bind]
  · intro vrs h1 hne hall
    have hie : vrs.isEmpty = false := by
      cases vrs
      · exact absurd rfl hne
      · rfl
    simp only [search_by_sender_tool, h1, Except.bind, hie, Bool.false_eq_true,
      if_false]
    rw [hydrate_plain_all_ok env.dbGet vrs hall]
  · intro vrs h1 h2 hall
    simp only [search_by_sender_tool, h1, h2, Except.bind, List.isEmpty_nil,
      if_true]
    rw [hydrate_plain_all_ok env.dbGet vrs hall]
  · intro m hm
    simp [get_recent_tool, hm]
  · intro es hes
    simp [get_recent_tool, hes]

/-- Witness for C9: on a concrete environment the dangling candidate
is skipped, the raising fallback search yields an empty list, and the
raising recency read yields an empty list. -/
theorem query_tools_never_raise_witness :
    search_emails_tool env_c9 =
      hydrated_scored_pure env_c9.dbGet [⟨"e1", 3⟩, ⟨"gone", 1⟩] ∧
    search_by_sender_tool env_c9 = [] ∧
    get_recent_tool env_c9 = [] := by
  have T := query_tools_never_raise env_c9
  exact ⟨T.2.1 [⟨"e1", 3⟩, ⟨"gone", 1⟩] rfl (by decide),
    T.2.2.2.2.1 "chroma down" rfl rfl,
    T.2.2.2.2.2.2.2.1 "db down" rfl⟩

end VoiceAgent
